import Mathlib

/-!
Verification of the EduHub course-marketplace backend.

Shallow embedding of the data model and operations of the repository:

* `src/backend/models/Course.js`  — course schema, `enrollStudent`,
  `unenrollStudent`, `addReview`, `getFeatured`, `getByCategory`;
* `src/unnamed/part_001` (the User model) — user schema, `enrollInCourse`,
  `unenrollFromCourse`, `completeCourse`;
* `src/backend/middleware/auth.js` — `protect`, `optionalAuth`, and the
  course route handlers (list, update, delete, enroll, unenroll, reviews,
  complete, stats);
* `src/unnamed/part_002` (the auth routes) — the signup handler.

Conventions of the embedding:

* MongoDB ObjectIds are modelled as `Nat`; JS numbers as `ℚ` (prices,
  ratings) or `Nat` (counts, timestamps); `createdAt` timestamps as `Nat`.
* A mongoose document store is a `Db` holding the two collections as lists;
  `findById` is `List.find?` on the id and `save` rewrites the document
  with the matching id in place.
* Presentation-only metadata fields that no claim mentions (currency,
  thumbnail, duration label, totalHours, lessons, prerequisites,
  learningObjectives, completionCertificate, bio, avatar, socialLinks,
  lastLogin, emailVerified) are omitted from the record types.
* The password hashing performed by the User model's pre-save hook is not
  modelled: the stored `password` field abstractly holds the credential.
-/

/-- Roles of `userSchema.role` (part_001, lines 28–32); default `student`. -/
inductive Role
  | student
  | instructor
  | admin
deriving DecidableEq, Repr

/-- An entry of `courseSchema.reviews` (Course.js, lines 136–155).
The creation timestamp is not modelled (no claim mentions it). -/
structure Review where
  user : Nat
  rating : ℚ
  comment : Option String := none
deriving DecidableEq, Repr

/-- The derived aggregate `courseSchema.rating` (Course.js, lines 124–135);
schema defaults are `average = 0`, `count = 0`. -/
structure RatingAgg where
  average : ℚ
  count : Nat
deriving DecidableEq, Repr

/-- A course document (Course.js, lines 42–180), restricted to the fields
the claims mention. -/
structure Course where
  id : Nat
  title : String
  description : String
  instructor : String
  /-- `instructorId` is optional in the schema (Course.js line 62:
  `required: false`), hence an `Option`. -/
  instructorId : Option Nat
  category : String
  level : String
  price : ℚ
  tags : List String
  createdAt : Nat
  enrolledStudents : List Nat
  reviews : List Review
  rating : RatingAgg
  isPublished : Bool
  isFeatured : Bool
deriving DecidableEq, Repr

/-- A user document (part_001, lines 4–73), restricted to the fields the
claims mention. -/
structure User where
  id : Nat
  name : String
  email : String
  password : String
  role : Role
  isActive : Bool
  enrolledCourses : List Nat
  completedCourses : List Nat
deriving DecidableEq, Repr

/-- The document store: the two mongoose collections. -/
structure Db where
  users : List User
  courses : List Course
deriving DecidableEq, Repr

/-- `Model.findById`: first document whose id matches. -/
def Db.findCourse (db : Db) (cid : Nat) : Option Course :=
  db.courses.find? (fun c => c.id == cid)

/-- `Model.findById` on the users collection. -/
def Db.findUser (db : Db) (uid : Nat) : Option User :=
  db.users.find? (fun u => u.id == uid)

/-- `document.save()`: rewrite the stored course having this document's id. -/
def Db.saveCourse (db : Db) (c : Course) : Db :=
  { db with courses := db.courses.map (fun x => if x.id == c.id then c else x) }

/-- `document.save()` on a user document. -/
def Db.saveUser (db : Db) (u : User) : Db :=
  { db with users := db.users.map (fun x => if x.id == u.id then u else x) }

/-- Method `courseSchema.methods.enrollStudent` (Course.js, lines 193–199):
push the student id unless already present. (The `save` is performed by the
caller through `Db.saveCourse`.) -/
def Course.enrollStudent (c : Course) (studentId : Nat) : Course :=
  if studentId ∈ c.enrolledStudents then c
  else { c with enrolledStudents := c.enrolledStudents ++ [studentId] }

/-- Method `courseSchema.methods.unenrollStudent` (Course.js, lines 202–208):
filter the student id out by value equality. -/
def Course.unenrollStudent (c : Course) (studentId : Nat) : Course :=
  { c with enrolledStudents := c.enrolledStudents.filter (fun i => i ≠ studentId) }

/-- Method `courseSchema.methods.addReview` (Course.js, lines 211–231):
drop any existing review by this user, append the new one, then recompute
`rating.average` as the reduce-sum of the ratings divided by the length,
and `rating.count` as the length. -/
def Course.addReview (c : Course) (userId : Nat) (rating : ℚ)
    (comment : Option String) : Course :=
  let reviews := (c.reviews.filter (fun r => r.user ≠ userId)) ++
    [{ user := userId, rating := rating, comment := comment }]
  let totalRating := reviews.foldl (fun sum r => sum + r.rating) 0
  { c with
    reviews := reviews
    rating := { average := totalRating / (reviews.length : ℚ)
                count := reviews.length } }

/-- Method `userSchema.methods.enrollInCourse` (part_001, lines 106–112):
push the course id unless already present. -/
def User.enrollInCourse (u : User) (courseId : Nat) : User :=
  if courseId ∈ u.enrolledCourses then u
  else { u with enrolledCourses := u.enrolledCourses ++ [courseId] }

/-- Method `userSchema.methods.unenrollFromCourse` (part_001, lines 115–121):
filter the course id out of `enrolledCourses` (only; `completedCourses` is
untouched). -/
def User.unenrollFromCourse (u : User) (courseId : Nat) : User :=
  { u with enrolledCourses := u.enrolledCourses.filter (fun i => i ≠ courseId) }

/-- Method `userSchema.methods.completeCourse` (part_001, lines 124–130):
push the course id onto `completedCourses` unless already present. -/
def User.completeCourse (u : User) (courseId : Nat) : User :=
  if courseId ∈ u.completedCourses then u
  else { u with completedCourses := u.completedCourses ++ [courseId] }

/-- The reduce-sum of `addReview` (Course.js line 225) equals the sum of the
mapped ratings. -/
theorem foldl_add_rating (l : List Review) :
    l.foldl (fun sum r => sum + r.rating) 0 = (l.map Review.rating).sum := by
  rw [← List.foldl_map (f := Review.rating) (g := fun sum x => sum + x),
    List.sum_eq_foldl]

/-- An empty published course used by the C1 example scenario: 0 reviews and
the schema-default aggregate `average = 0, count = 0`. -/
def emptyCourse : Course :=
  { id := 10, title := "c", description := "d", instructor := "i"
    instructorId := some 100, category := "Programming", level := "Beginner"
    price := 0, tags := [], createdAt := 0, enrolledStudents := [0, 1]
    reviews := [], rating := { average := 0, count := 0 }
    isPublished := true, isFeatured := false }

/-- Scenario state after account X (id 0) submits rating 5. -/
def scenario1 : Course := emptyCourse.addReview 0 5 none

/-- Scenario state after account Y (id 1) submits rating 3. -/
def scenario2 : Course := scenario1.addReview 1 3 none

/-- Scenario state after account X (id 0) resubmits rating 1. -/
def scenario3 : Course := scenario2.addReview 0 1 none

/-- C1: after every `addReview`, `rating.count` equals the length of the
review list and `rating.average` equals the arithmetic mean of the current
review ratings (so, the invariant holds after each step of any sequence of
operations, the incoming state being arbitrary); a second review by the same
author replaces the existing one, as the concrete scenario shows: start
average 0 / count 0; X submits 5 giving average 5, count 1; Y submits 3
giving average 4, count 2; X resubmits 1 giving average 2, count 2 with the
review list holding one review per author. -/
theorem addReview_rating_invariant :
    (∀ (c : Course) (uid : Nat) (r : ℚ) (comment : Option String),
      ((c.addReview uid r comment).rating.count =
        (c.addReview uid r comment).reviews.length) ∧
      ((c.addReview uid r comment).rating.average =
        ((c.addReview uid r comment).reviews.map Review.rating).sum /
          ((c.addReview uid r comment).reviews.length : ℚ))) ∧
    (emptyCourse.rating = { average := 0, count := 0 } ∧
     scenario1.rating = { average := 5, count := 1 } ∧
     scenario2.rating = { average := 4, count := 2 } ∧
     scenario3.rating = { average := 2, count := 2 } ∧
     scenario3.reviews.map Review.user = [1, 0]) := by
  constructor
  · intro c uid r comment
    refine ⟨rfl, ?_⟩
    simp only [Course.addReview, foldl_add_rating]
  · refine ⟨rfl, ?_, ?_, ?_, ?_⟩
    · simp only [scenario1, emptyCourse, Course.addReview]
      norm_num
    · simp only [scenario2, scenario1, emptyCourse, Course.addReview]
      norm_num
    · simp only [scenario3, scenario2, scenario1, emptyCourse, Course.addReview]
      norm_num
    · rfl

/-- Error outcomes of the course route handlers (auth.js router), named after
the checks in the handlers. -/
inductive RouteError
  | courseNotFound
  | alreadyEnrolled
  | notEnrolled
  | alreadyCompleted
  | forbidden
  | validationFailed
  | serverFailure
deriving DecidableEq, Repr

/-- HTTP status code each handler attaches to the error response. -/
def RouteError.status : RouteError → Nat
  | .courseNotFound => 404
  | .alreadyEnrolled => 400
  | .notEnrolled => 400
  | .alreadyCompleted => 400
  | .forbidden => 403
  | .validationFailed => 400
  | .serverFailure => 500

/-- Handler `POST /:id/enroll` (auth.js, lines 330–363): 404 when the course
is absent or unpublished; 400 `AlreadyEnrolled` when the caller is already in
`enrolledStudents`; otherwise save the course through `enrollStudent`, then
load the user and save it through `enrollInCourse`. A missing user document
makes the JS `user.enrollInCourse` call throw, caught as a 500, after the
course was already saved. -/
def enrollRoute (db : Db) (cid uid : Nat) : Except RouteError Unit × Db :=
  match db.findCourse cid with
  | none => (.error .courseNotFound, db)
  | some course =>
    if ¬ course.isPublished then (.error .courseNotFound, db)
    else if uid ∈ course.enrolledStudents then (.error .alreadyEnrolled, db)
    else
      let db1 := db.saveCourse (course.enrollStudent uid)
      match db1.findUser uid with
      | none => (.error .serverFailure, db1)
      | some user => (.ok (), db1.saveUser (user.enrollInCourse cid))

/-- Handler `DELETE /:id/enroll` (auth.js, lines 368–396): 404 when the
course is absent (no publish check here); 400 `NotEnrolled` when the caller
is not in `enrolledStudents`; otherwise save the course through
`unenrollStudent`, then load the user and save it through
`unenrollFromCourse`. -/
def unenrollRoute (db : Db) (cid uid : Nat) : Except RouteError Unit × Db :=
  match db.findCourse cid with
  | none => (.error .courseNotFound, db)
  | some course =>
    if uid ∉ course.enrolledStudents then (.error .notEnrolled, db)
    else
      let db1 := db.saveCourse (course.unenrollStudent uid)
      match db1.findUser uid with
      | none => (.error .serverFailure, db1)
      | some user => (.ok (), db1.saveUser (user.unenrollFromCourse cid))

/-- Handler `POST /:id/complete` (auth.js, lines 503–534): 404 when the
course is absent; 400 `NotEnrolled` when the caller is not currently in
`enrolledStudents`; 400 `AlreadyCompleted` when the course id is already in
the user's `completedCourses`; otherwise save the user through
`completeCourse`. The course document is never written. -/
def completeRoute (db : Db) (cid uid : Nat) : Except RouteError Unit × Db :=
  match db.findCourse cid with
  | none => (.error .courseNotFound, db)
  | some course =>
    if uid ∉ course.enrolledStudents then (.error .notEnrolled, db)
    else
      match db.findUser uid with
      | none => (.error .serverFailure, db)
      | some user =>
        if course.id ∈ user.completedCourses then (.error .alreadyCompleted, db)
        else (.ok (), db.saveUser (user.completeCourse course.id))

/-- Observation: the `enrolledStudents` list of the stored course, when the
course exists. -/
def Db.courseStudents (db : Db) (cid : Nat) : Option (List Nat) :=
  (db.findCourse cid).map Course.enrolledStudents

/-- Observation: the `enrolledCourses` list of the stored user, when the
user exists. -/
def Db.userEnrolled (db : Db) (uid : Nat) : Option (List Nat) :=
  (db.findUser uid).map User.enrolledCourses

/-- Observation: the `completedCourses` list of the stored user, when the
user exists. -/
def Db.userCompleted (db : Db) (uid : Nat) : Option (List Nat) :=
  (db.findUser uid).map User.completedCourses

/-- Observation: the stored course exists and its `enrolledStudents` list
contains the given account id. -/
def Db.courseHasStudent (db : Db) (cid uid : Nat) : Bool :=
  (db.findCourse cid).any (fun c => c.enrolledStudents.contains uid)

/-- Observation: the stored user exists and its `enrolledCourses` list
contains the given course id. -/
def Db.userHasEnrolled (db : Db) (uid cid : Nat) : Bool :=
  (db.findUser uid).any (fun u => u.enrolledCourses.contains cid)

/-- Observation: the stored user exists and its `completedCourses` list
contains the given course id. -/
def Db.userHasCompleted (db : Db) (uid cid : Nat) : Bool :=
  (db.findUser uid).any (fun u => u.completedCourses.contains cid)

/-- A found document's key matches the searched key. -/
theorem key_of_find? {α : Type} {key : α → Nat} {l : List α} {k : Nat} {a : α}
    (h : l.find? (fun x => key x == k) = some a) : key a = k := by
  have := List.find?_some h
  simpa using this

/-- Replacing the document with a given key and searching for that key finds
the replacement, provided the search succeeded before. -/
theorem find?_map_replace {α : Type} (key : α → Nat) (l : List α) (a : α)
    (k : Nat) (hk : key a = k)
    (h : (l.find? (fun x => key x == k)).isSome) :
    (l.map (fun x => if key x == key a then a else x)).find?
      (fun x => key x == k) = some a := by
  induction l with
  | nil => simp at h
  | cons y l ih =>
    by_cases hy : key y = k
    · simp [List.find?_cons, hy, hk]
    · have h2 : (l.find? (fun x => key x == k)).isSome := by
        simpa [List.find?_cons, hy] using h
      have hya : ¬ (key y == key a) = true := by simp [hk, hy]
      rw [List.map_cons, if_neg hya]
      simpa [List.find?_cons, hy] using ih h2

/-- A course found by id has that id. -/
theorem id_of_findCourse {db : Db} {cid : Nat} {c : Course}
    (h : db.findCourse cid = some c) : c.id = cid := key_of_find? h

/-- A user found by id has that id. -/
theorem id_of_findUser {db : Db} {uid : Nat} {u : User}
    (h : db.findUser uid = some u) : u.id = uid := key_of_find? h

/-- Saving a course whose id is the searched one makes the search return it,
when the search succeeded before the save. -/
theorem findCourse_saveCourse (db : Db) (c : Course) (cid : Nat)
    (hk : c.id = cid) (h : (db.findCourse cid).isSome) :
    (db.saveCourse c).findCourse cid = some c :=
  find?_map_replace Course.id db.courses c cid hk h

/-- Saving a user whose id is the searched one makes the search return it,
when the search succeeded before the save. -/
theorem findUser_saveUser (db : Db) (u : User) (uid : Nat)
    (hk : u.id = uid) (h : (db.findUser uid).isSome) :
    (db.saveUser u).findUser uid = some u :=
  find?_map_replace User.id db.users u uid hk h

/-- Saving a course does not change user lookups. -/
theorem findUser_saveCourse (db : Db) (c : Course) (uid : Nat) :
    (db.saveCourse c).findUser uid = db.findUser uid := rfl

/-- Saving a user does not change course lookups. -/
theorem findCourse_saveUser (db : Db) (u : User) (cid : Nat) :
    (db.saveUser u).findCourse cid = db.findCourse cid := rfl

/-- `enrollStudent` keeps the course id. -/
theorem enrollStudent_id (c : Course) (s : Nat) :
    (c.enrollStudent s).id = c.id := by
  unfold Course.enrollStudent; split <;> rfl

/-- `enrollStudent` keeps the publish flag. -/
theorem enrollStudent_isPublished (c : Course) (s : Nat) :
    (c.enrollStudent s).isPublished = c.isPublished := by
  unfold Course.enrollStudent; split <;> rfl

/-- After `enrollStudent` the student id is in the list. -/
theorem mem_enrollStudent (c : Course) (s : Nat) :
    s ∈ (c.enrollStudent s).enrolledStudents := by
  unfold Course.enrollStudent
  split
  · assumption
  · simp

/-- `enrollInCourse` keeps the user id. -/
theorem enrollInCourse_id (u : User) (cid : Nat) :
    (u.enrollInCourse cid).id = u.id := by
  unfold User.enrollInCourse; split <;> rfl

/-- After `enrollInCourse` the course id is in the list. -/
theorem mem_enrollInCourse (u : User) (cid : Nat) :
    cid ∈ (u.enrollInCourse cid).enrolledCourses := by
  unfold User.enrollInCourse
  split
  · assumption
  · simp

/-- Inversion of a successful `POST /:id/enroll`: the course was found,
published, did not yet hold the caller, the user was found after the course
save, and the final store is the two saves in order. -/
theorem enrollRoute_ok (db db2 : Db) (cid uid : Nat)
    (h : enrollRoute db cid uid = (.ok (), db2)) :
    ∃ course user,
      db.findCourse cid = some course ∧ course.isPublished = true ∧
      uid ∉ course.enrolledStudents ∧
      (db.saveCourse (course.enrollStudent uid)).findUser uid = some user ∧
      db2 = (db.saveCourse (course.enrollStudent uid)).saveUser
        (user.enrollInCourse cid) := by
  unfold enrollRoute at h
  split at h
  next => simp at h
  next course hc =>
    split_ifs at h with h1 h2
    · simp at h
    · simp only [] at h
      split at h
      next => simp at h
      next user hu =>
        simp only [Prod.mk.injEq] at h
        exact ⟨course, user, hc, h1, h2, hu, h.2.symm⟩
    · simp at h

/-- C2: after a successful `enroll(C, A)` the stored course holds A's id in
`enrolledStudents` and the stored user holds C's id in `enrolledCourses`;
repeating the enroll fails with `AlreadyEnrolled` (HTTP 400) and leaves the
store — hence both lists — unchanged. -/
theorem enroll_then_state_and_second_fails (db db2 : Db) (cid uid : Nat)
    (h : enrollRoute db cid uid = (.ok (), db2)) :
    db2.courseHasStudent cid uid = true ∧
    db2.userHasEnrolled uid cid = true ∧
    enrollRoute db2 cid uid = (.error .alreadyEnrolled, db2) ∧
    RouteError.alreadyEnrolled.status = 400 := by
  obtain ⟨course, user, hc, hp, hmem, hu, hdb⟩ := enrollRoute_ok db db2 cid uid h
  have hcid : course.id = cid := id_of_findCourse hc
  have huid : user.id = uid := id_of_findUser hu
  have hfind2 : db2.findCourse cid = some (course.enrollStudent uid) := by
    rw [hdb, findCourse_saveUser]
    exact findCourse_saveCourse db (course.enrollStudent uid) cid
      (by rw [enrollStudent_id, hcid]) (by rw [hc]; rfl)
  have hfindu2 : db2.findUser uid = some (user.enrollInCourse cid) := by
    rw [hdb]
    exact findUser_saveUser _ (user.enrollInCourse cid) uid
      (by rw [enrollInCourse_id, huid]) (by rw [hu]; rfl)
  refine ⟨?_, ?_, ?_, rfl⟩
  · unfold Db.courseHasStudent
    rw [hfind2]
    simpa using mem_enrollStudent course uid
  · unfold Db.userHasEnrolled
    rw [hfindu2]
    simpa using mem_enrollInCourse user cid
  · have hpub2 : (course.enrollStudent uid).isPublished = true := by
      rw [enrollStudent_isPublished]; exact hp
    simp [enrollRoute, hfind2, hpub2, mem_enrollStudent course uid]

/-- A student account with no course references, a concrete witness input. -/
def userA : User :=
  { id := 1, name := "a", email := "a@x.com", password := "p", role := .student
    isActive := true, enrolledCourses := [], completedCourses := [] }

/-- A published course with no enrolled students, a concrete witness input. -/
def courseW : Course := { emptyCourse with id := 20, enrolledStudents := [] }

/-- Store holding exactly the witness user and course. -/
def dbW : Db := { users := [userA], courses := [courseW] }

/-- Store after the witness enroll call on `dbW`. -/
def dbW2 : Db := (enrollRoute dbW 20 1).2

/-- Witness for C2: the enroll of user 1 into course 20 on the concrete
store `dbW` succeeds, and the theorem's conclusions hold there. -/
theorem enroll_then_state_and_second_fails_witness :
    dbW2.courseHasStudent 20 1 = true ∧
    dbW2.userHasEnrolled 1 20 = true ∧
    enrollRoute dbW2 20 1 = (.error .alreadyEnrolled, dbW2) ∧
    RouteError.alreadyEnrolled.status = 400 :=
  enroll_then_state_and_second_fails dbW dbW2 20 1 rfl

/-- `unenrollStudent` keeps the course id. -/
theorem unenrollStudent_id (c : Course) (s : Nat) :
    (c.unenrollStudent s).id = c.id := rfl

/-- `unenrollFromCourse` keeps the user id. -/
theorem unenrollFromCourse_id (u : User) (cid : Nat) :
    (u.unenrollFromCourse cid).id = u.id := rfl

/-- `enrollStudent` on a course not yet holding the student appends the id. -/
theorem enrollStudent_not_mem (c : Course) (s : Nat)
    (h : s ∉ c.enrolledStudents) :
    (c.enrollStudent s).enrolledStudents = c.enrolledStudents ++ [s] := by
  unfold Course.enrollStudent
  rw [if_neg h]

/-- `enrollInCourse` on a user not yet holding the course appends the id. -/
theorem enrollInCourse_not_mem (u : User) (cid : Nat)
    (h : cid ∉ u.enrolledCourses) :
    (u.enrollInCourse cid).enrolledCourses = u.enrolledCourses ++ [cid] := by
  unfold User.enrollInCourse
  rw [if_neg h]

/-- Filtering an element out of a list that did not hold it, after appending
it, restores the original list. -/
theorem filter_ne_append_self (l : List Nat) (x : Nat) (hx : x ∉ l) :
    (l ++ [x]).filter (fun i => i ≠ x) = l := by
  have h1 : l.filter (fun i => i ≠ x) = l :=
    List.filter_eq_self.mpr (fun a ha => by simp; rintro rfl; exact hx ha)
  rw [List.filter_append, h1]
  simp

/-- A user holding a reference to course 20 without being in the course's
student list: the one-sided state the dual-write design admits (spec §5). -/
def userDangling : User := { userA with enrolledCourses := [20] }

/-- Store for the C3 counterexample: user 1 references course 20, but course
20 does not reference user 1. -/
def dbDangling : Db := { users := [userDangling], courses := [courseW] }

/-- C3 counterexample: on the store `dbDangling`, `enroll(20, 1)` succeeds
(the guard only checks the course side) and leaves the user record as it
was; the following `unenroll(20, 1)` also succeeds but filters the
pre-existing course reference out of `enrolledCourses`, so the user list is
`[]` instead of its pre-enrollment value `[20]` — the round trip does not
restore the pre-enrollment state. -/
theorem unenroll_after_enroll_not_restoring :
    (enrollRoute dbDangling 20 1).1 = .ok () ∧
    (unenrollRoute (enrollRoute dbDangling 20 1).2 20 1).1 = .ok () ∧
    dbDangling.userEnrolled 1 = some [20] ∧
    ((unenrollRoute (enrollRoute dbDangling 20 1).2 20 1).2).userEnrolled 1 =
      some [] ∧
    ((unenrollRoute (enrollRoute dbDangling 20 1).2 20 1).2).userEnrolled 1 ≠
      dbDangling.userEnrolled 1 := by
  refine ⟨rfl, rfl, rfl, rfl, ?_⟩
  decide

/-- C3 (amended): when the account's `enrolledCourses` does not already hold
the course id before the enroll (the mutually consistent case),
`unenroll(C, A)` right after a successful `enroll(C, A)` returns both
reference lists to their exact pre-enrollment values; and `unenroll(C, A)`
when A is not in `C.enrolledStudents` fails with `NotEnrolled` (HTTP 400)
without touching the store. The consistency precondition is forced by the
counterexample `unenroll_after_enroll_not_restoring`. -/
theorem unenroll_reverses_enroll_amended :
    (∀ (db db1 : Db) (cid uid : Nat) (u0 : User),
      db.findUser uid = some u0 → cid ∉ u0.enrolledCourses →
      enrollRoute db cid uid = (.ok (), db1) →
      (unenrollRoute db1 cid uid).1 = .ok () ∧
      ((unenrollRoute db1 cid uid).2).courseStudents cid =
        db.courseStudents cid ∧
      ((unenrollRoute db1 cid uid).2).userEnrolled uid =
        db.userEnrolled uid) ∧
    (∀ (db : Db) (cid uid : Nat) (c : Course),
      db.findCourse cid = some c → uid ∉ c.enrolledStudents →
      unenrollRoute db cid uid = (.error .notEnrolled, db) ∧
      RouteError.notEnrolled.status = 400) := by
  constructor
  · intro db db1 cid uid u0 hu0 hnc h
    obtain ⟨course, user, hc, hp, hmem, hu, hdb1⟩ := enrollRoute_ok db db1 cid uid h
    have huser : user = u0 := by
      rw [findUser_saveCourse] at hu
      exact Option.some.inj (hu.symm.trans hu0)
    subst huser
    have hcid : course.id = cid := id_of_findCourse hc
    have huid : user.id = uid := id_of_findUser hu0
    have hc1id : (course.enrollStudent uid).id = cid := by
      rw [enrollStudent_id]; exact hcid
    have hfind1 : db1.findCourse cid = some (course.enrollStudent uid) := by
      rw [hdb1, findCourse_saveUser]
      exact findCourse_saveCourse db _ cid hc1id (by rw [hc]; rfl)
    have hmem1 : uid ∈ (course.enrollStudent uid).enrolledStudents :=
      mem_enrollStudent course uid
    have hu1id : (user.enrollInCourse cid).id = uid := by
      rw [enrollInCourse_id]; exact huid
    have hfindu1 : db1.findUser uid = some (user.enrollInCourse cid) := by
      rw [hdb1]
      exact findUser_saveUser _ _ uid hu1id (by rw [findUser_saveCourse, hu0]; rfl)
    have hrun : unenrollRoute db1 cid uid =
        (.ok (), (db1.saveCourse ((course.enrollStudent uid).unenrollStudent uid)).saveUser
          ((user.enrollInCourse cid).unenrollFromCourse cid)) := by
      simp only [unenrollRoute, hfind1, findUser_saveCourse, hfindu1]
      rw [if_neg (not_not_intro hmem1)]
    have hstudents : ((course.enrollStudent uid).unenrollStudent uid).enrolledStudents =
        course.enrolledStudents := by
      unfold Course.unenrollStudent
      rw [enrollStudent_not_mem course uid hmem]
      exact filter_ne_append_self _ uid hmem
    have hcourses : ((user.enrollInCourse cid).unenrollFromCourse cid).enrolledCourses =
        user.enrolledCourses := by
      unfold User.unenrollFromCourse
      rw [enrollInCourse_not_mem user cid hnc]
      exact filter_ne_append_self _ cid hnc
    refine ⟨by rw [hrun], ?_, ?_⟩
    · rw [hrun]
      unfold Db.courseStudents
      rw [findCourse_saveUser]
      rw [findCourse_saveCourse db1 _ cid (by rw [unenrollStudent_id]; exact hc1id)
        (by rw [hfind1]; rfl)]
      rw [hc]
      simp [hstudents]
    · rw [hrun]
      unfold Db.userEnrolled
      rw [findUser_saveUser _ _ uid (by rw [unenrollFromCourse_id]; exact hu1id)
        (by rw [findUser_saveCourse, hfindu1]; rfl)]
      rw [hu0]
      simp [hcourses]
  · intro db cid uid c hc hmem
    refine ⟨?_, rfl⟩
    simp [unenrollRoute, hc, hmem]

/-- `completeCourse` keeps the user id. -/
theorem completeCourse_id (u : User) (cid : Nat) :
    (u.completeCourse cid).id = u.id := by
  unfold User.completeCourse; split <;> rfl

/-- After `completeCourse` the course id is in `completedCourses`. -/
theorem mem_completeCourse (u : User) (cid : Nat) :
    cid ∈ (u.completeCourse cid).completedCourses := by
  unfold User.completeCourse
  split
  · assumption
  · simp

/-- `completeCourse` does not change `enrolledCourses`. -/
theorem completeCourse_enrolled (u : User) (cid : Nat) :
    (u.completeCourse cid).enrolledCourses = u.enrolledCourses := by
  unfold User.completeCourse; split <;> rfl

/-- `unenrollFromCourse` does not change `completedCourses`. -/
theorem unenrollFromCourse_completed (u : User) (cid : Nat) :
    (u.unenrollFromCourse cid).completedCourses = u.completedCourses := rfl

/-- Inversion of a successful `POST /:id/complete`: the course was found,
held the caller, the user was found and had not completed the course, and
the store change is the single user save. -/
theorem completeRoute_ok (db db1 : Db) (cid uid : Nat)
    (h : completeRoute db cid uid = (.ok (), db1)) :
    ∃ c u, db.findCourse cid = some c ∧ uid ∈ c.enrolledStudents ∧
      db.findUser uid = some u ∧ c.id ∉ u.completedCourses ∧
      db1 = db.saveUser (u.completeCourse c.id) := by
  unfold completeRoute at h
  split at h
  next => simp at h
  next c hc =>
    split_ifs at h with h1
    · split at h
      next => simp at h
      next u hu =>
        split_ifs at h with h2
        · simp at h
        · simp only [Prod.mk.injEq] at h
          exact ⟨c, u, hc, h1, hu, h2, h.2.symm⟩
    · simp at h

/-- C4: `complete(C, A)` fails with `NotEnrolled` (HTTP 400) whenever A's id
is not currently in `C.enrolledStudents`; when A is enrolled and has not
completed C it succeeds; a second call right after a success fails with
`AlreadyCompleted` (HTTP 400) without touching the store; and an `unenroll`
performed after the success leaves C's id inside A's `completedCourses`
(completion is not reverted). -/
theorem complete_route_spec :
    (∀ (db : Db) (cid uid : Nat) (c : Course),
      db.findCourse cid = some c → uid ∉ c.enrolledStudents →
      completeRoute db cid uid = (.error .notEnrolled, db) ∧
      RouteError.notEnrolled.status = 400) ∧
    (∀ (db : Db) (cid uid : Nat) (c : Course) (u : User),
      db.findCourse cid = some c → uid ∈ c.enrolledStudents →
      db.findUser uid = some u → cid ∉ u.completedCourses →
      (completeRoute db cid uid).1 = .ok ()) ∧
    (∀ (db db1 : Db) (cid uid : Nat),
      completeRoute db cid uid = (.ok (), db1) →
      completeRoute db1 cid uid = (.error .alreadyCompleted, db1) ∧
      RouteError.alreadyCompleted.status = 400) ∧
    (∀ (db db1 : Db) (cid uid : Nat),
      completeRoute db cid uid = (.ok (), db1) →
      ((unenrollRoute db1 cid uid).2).userHasCompleted uid cid = true) := by
  refine ⟨?_, ?_, ?_, ?_⟩
  · intro db cid uid c hc hmem
    refine ⟨?_, rfl⟩
    simp [completeRoute, hc, hmem]
  · intro db cid uid c u hc hmem hu hncomp
    have hcid : c.id = cid := id_of_findCourse hc
    simp [completeRoute, hc, hmem, hu, hcid, hncomp]
  · intro db db1 cid uid h
    obtain ⟨c, u, hc, hmem, hu, hncomp, hdb1⟩ := completeRoute_ok db db1 cid uid h
    have hcid : c.id = cid := id_of_findCourse hc
    have huid : u.id = uid := id_of_findUser hu
    have hfindc : db1.findCourse cid = some c := by
      rw [hdb1, findCourse_saveUser, hc]
    have hfindu : db1.findUser uid = some (u.completeCourse c.id) := by
      rw [hdb1]
      exact findUser_saveUser db _ uid (by rw [completeCourse_id]; exact huid)
        (by rw [hu]; rfl)
    refine ⟨?_, rfl⟩
    simp [completeRoute, hfindc, hmem, hfindu, mem_completeCourse u c.id]
  · intro db db1 cid uid h
    obtain ⟨c, u, hc, hmem, hu, hncomp, hdb1⟩ := completeRoute_ok db db1 cid uid h
    have hcid : c.id = cid := id_of_findCourse hc
    have huid : u.id = uid := id_of_findUser hu
    have hfindc : db1.findCourse cid = some c := by
      rw [hdb1, findCourse_saveUser, hc]
    have hfindu : db1.findUser uid = some (u.completeCourse c.id) := by
      rw [hdb1]
      exact findUser_saveUser db _ uid (by rw [completeCourse_id]; exact huid)
        (by rw [hu]; rfl)
    have hrun : unenrollRoute db1 cid uid =
        (.ok (), (db1.saveCourse (c.unenrollStudent uid)).saveUser
          ((u.completeCourse c.id).unenrollFromCourse cid)) := by
      simp only [unenrollRoute, hfindc, findUser_saveCourse, hfindu]
      rw [if_neg (not_not_intro hmem)]
    rw [hrun]
    unfold Db.userHasCompleted
    rw [findUser_saveUser _ _ uid
      (by rw [unenrollFromCourse_id, completeCourse_id]; exact huid)
      (by rw [findUser_saveCourse, hfindu]; rfl)]
    simp only [Option.any_some, unenrollFromCourse_completed]
    rw [← hcid]
    simpa using mem_completeCourse u c.id

/-- A published course in which user 1 is enrolled, a concrete witness
input for C4. -/
def courseE : Course := { emptyCourse with id := 30, enrolledStudents := [1] }

/-- Store holding the witness user enrolled in `courseE`. -/
def dbE : Db := { users := [userA], courses := [courseE] }

/-- Store after user 1 completes course 30 on `dbE`. -/
def dbE2 : Db := (completeRoute dbE 30 1).2

/-- Witness for C4 at the concrete store `dbE`: user 2 is rejected as not
enrolled, user 1 completes once, a repeat is rejected as already completed,
and unenrolling keeps the completion. -/
theorem complete_route_spec_witness :
    (completeRoute dbE 30 2 = (.error .notEnrolled, dbE) ∧
      RouteError.notEnrolled.status = 400) ∧
    (completeRoute dbE 30 1).1 = .ok () ∧
    (completeRoute dbE2 30 1 = (.error .alreadyCompleted, dbE2) ∧
      RouteError.alreadyCompleted.status = 400) ∧
    ((unenrollRoute dbE2 30 1).2).userHasCompleted 1 30 = true :=
  ⟨complete_route_spec.1 dbE 30 2 courseE rfl (by decide),
   complete_route_spec.2.1 dbE 30 1 courseE userA rfl (by decide) rfl (by decide),
   complete_route_spec.2.2.1 dbE dbE2 30 1 rfl,
   complete_route_spec.2.2.2 dbE dbE2 30 1 rfl⟩

/-- Witness for the amended C3 at the concrete store `dbW`: enroll of user 1
into course 20 succeeds from the consistent state, unenroll restores both
lists, and an unenroll without enrollment is rejected. -/
theorem unenroll_reverses_enroll_amended_witness :
    ((unenrollRoute dbW2 20 1).1 = .ok () ∧
     ((unenrollRoute dbW2 20 1).2).courseStudents 20 = dbW.courseStudents 20 ∧
     ((unenrollRoute dbW2 20 1).2).userEnrolled 1 = dbW.userEnrolled 1) ∧
    (unenrollRoute dbW 20 1 = (.error .notEnrolled, dbW) ∧
     RouteError.notEnrolled.status = 400) :=
  ⟨unenroll_reverses_enroll_amended.1 dbW dbW2 20 1 userA rfl (by decide) rfl,
   unenroll_reverses_enroll_amended.2 dbW 20 1 courseW rfl (by decide)⟩

/-- `Model.findByIdAndUpdate`: apply an update to the stored course having
the given id. -/
def Db.updateCourse (db : Db) (cid : Nat) (f : Course → Course) : Db :=
  { db with courses := db.courses.map (fun x => if x.id == cid then f x else x) }

/-- The stats payload of `GET /:id/stats` (auth.js, lines 558–568).
`completionRate` is omitted: the handler renders it with the float-string
formatter `toFixed(2)`, which is outside this embedding; every other field
is kept. -/
structure Stats where
  totalEnrolled : Nat
  totalCompleted : Nat
  averageRating : ℚ
  totalReviews : Nat
  revenue : ℚ
  enrolledStudents : List Nat
deriving DecidableEq, Repr

/-- Handler `PUT /:id` (auth.js, lines 250–291), entered after `protect` and
`authorize('admin', 'instructor')` (so the caller's role is `instructor` or
`admin`). 404 when the course is absent. The ownership check evaluates
`course.instructorId.toString()` first: when `instructorId` is absent this
throws a TypeError that the catch turns into a 500, before any role test.
Otherwise a non-owning non-admin gets 403, else `findByIdAndUpdate` applies
the body, abstracted as the update function `upd` (a body accepted by the
express-validator checks; validation is not modelled). -/
def updateCourseRoute (db : Db) (cid : Nat) (caller : User)
    (upd : Course → Course) : Except RouteError Unit × Db :=
  match db.findCourse cid with
  | none => (.error .courseNotFound, db)
  | some course =>
    match course.instructorId with
    | none => (.error .serverFailure, db)
    | some iid =>
      if iid ≠ caller.id ∧ caller.role ≠ .admin then (.error .forbidden, db)
      else (.ok (), db.updateCourse cid upd)

/-- Handler `DELETE /:id` (auth.js, lines 296–325), after `protect` and
`authorize('admin', 'instructor')`; same 404 / TypeError-500 / 403 ladder as
the update handler. On success, `User.updateMany` pulls the course id from
`enrolledCourses` and `completedCourses` of every user whose
`enrolledCourses` holds it (the updateMany filter), then
`findByIdAndDelete` removes the course document. -/
def deleteCourseRoute (db : Db) (cid : Nat) (caller : User) :
    Except RouteError Unit × Db :=
  match db.findCourse cid with
  | none => (.error .courseNotFound, db)
  | some course =>
    match course.instructorId with
    | none => (.error .serverFailure, db)
    | some iid =>
      if iid ≠ caller.id ∧ caller.role ≠ .admin then (.error .forbidden, db)
      else
        let users1 := db.users.map (fun u =>
          if course.id ∈ u.enrolledCourses then
            { u with
              enrolledCourses := u.enrolledCourses.filter (fun i => i ≠ course.id)
              completedCourses := u.completedCourses.filter (fun i => i ≠ course.id) }
          else u)
        (.ok (), { users := users1,
                   courses := db.courses.filter (fun c => c.id ≠ cid) })

/-- Handler `GET /:id/stats` (auth.js, lines 539–579), after `protect` and
`authorize('admin', 'instructor')`; same 404 / TypeError-500 / 403 ladder.
On success it counts the users whose `completedCourses` holds the course id
(`User.countDocuments`) and assembles the stats payload. -/
def statsRoute (db : Db) (cid : Nat) (caller : User) :
    Except RouteError Stats :=
  match db.findCourse cid with
  | none => .error .courseNotFound
  | some course =>
    match course.instructorId with
    | none => .error .serverFailure
    | some iid =>
      if iid ≠ caller.id ∧ caller.role ≠ .admin then .error .forbidden
      else
        let completedCount :=
          (db.users.filter (fun u => course.id ∈ u.completedCourses)).length
        .ok { totalEnrolled := course.enrolledStudents.length
              totalCompleted := completedCount
              averageRating := course.rating.average
              totalReviews := course.rating.count
              revenue := course.price * (course.enrolledStudents.length : ℚ)
              enrolledStudents := course.enrolledStudents }

/-- A published course with no recorded owner, as the seed data creates
(part_000 sets no `instructorId`). -/
def courseNoOwner : Course := { emptyCourse with id := 40, instructorId := none }

/-- An admin account. -/
def adminUser : User := { userA with id := 2, role := .admin }

/-- An instructor account that owns nothing. -/
def instrUser : User := { userA with id := 3, role := .instructor }

/-- Store holding an ownerless course together with admin and instructor
callers. -/
def dbOwnerless : Db :=
  { users := [userA, adminUser, instrUser], courses := [courseNoOwner] }

/-- C5 counterexample: on the ownerless course 40 (its `instructorId` is
absent, as in the seeded data), the admin caller does not succeed on
update, delete or stats — each request ends in the 500 TypeError path — and
the non-owning instructor receives the same 500 instead of 403. This
falsifies both the for-every-course admin half and the instructor-Forbidden
half of the claim. -/
theorem ownership_fails_without_owner :
    dbOwnerless.findCourse 40 = some courseNoOwner ∧
    courseNoOwner.instructorId = none ∧
    adminUser.role = .admin ∧ instrUser.role = .instructor ∧
    (updateCourseRoute dbOwnerless 40 adminUser id).1 = .error .serverFailure ∧
    (deleteCourseRoute dbOwnerless 40 adminUser).1 = .error .serverFailure ∧
    statsRoute dbOwnerless 40 adminUser = .error .serverFailure ∧
    (updateCourseRoute dbOwnerless 40 instrUser id).1 = .error .serverFailure ∧
    (deleteCourseRoute dbOwnerless 40 instrUser).1 = .error .serverFailure ∧
    statsRoute dbOwnerless 40 instrUser = .error .serverFailure ∧
    RouteError.serverFailure.status = 500 :=
  ⟨rfl, rfl, rfl, rfl, rfl, rfl, rfl, rfl, rfl, rfl, rfl⟩

/-- C5 (amended): for every course with a recorded owner (`instructorId`
present), an authenticated caller of role `instructor` who is not that
owner receives `Forbidden` (HTTP 403) on update, delete and stats, while a
caller of role `admin` succeeds on all three regardless of ownership. For a
course whose `instructorId` is absent all three handlers answer 500 for any
caller, as the counterexample `ownership_fails_without_owner` shows. -/
theorem ownership_checks_amended :
    (∀ (db : Db) (cid : Nat) (caller : User) (course : Course) (iid : Nat)
       (upd : Course → Course),
      db.findCourse cid = some course → course.instructorId = some iid →
      caller.role = .instructor → iid ≠ caller.id →
      (updateCourseRoute db cid caller upd).1 = .error .forbidden ∧
      (deleteCourseRoute db cid caller).1 = .error .forbidden ∧
      statsRoute db cid caller = .error .forbidden ∧
      RouteError.forbidden.status = 403) ∧
    (∀ (db : Db) (cid : Nat) (caller : User) (course : Course) (iid : Nat)
       (upd : Course → Course),
      db.findCourse cid = some course → course.instructorId = some iid →
      caller.role = .admin →
      (updateCourseRoute db cid caller upd).1 = .ok () ∧
      (deleteCourseRoute db cid caller).1 = .ok () ∧
      (statsRoute db cid caller).isOk = true) := by
  constructor
  · intro db cid caller course iid upd hc hiid hrole hne
    have hcheck : iid ≠ caller.id ∧ caller.role ≠ Role.admin := by
      refine ⟨hne, ?_⟩
      rw [hrole]
      intro hcontra
      cases hcontra
    refine ⟨?_, ?_, ?_, rfl⟩
    · simp [updateCourseRoute, hc, hiid, hcheck]
    · simp [deleteCourseRoute, hc, hiid, hcheck]
    · simp [statsRoute, hc, hiid, hcheck]
  · intro db cid caller course iid upd hc hiid hrole
    have hcheck : ¬ (iid ≠ caller.id ∧ caller.role ≠ Role.admin) := by
      rintro ⟨-, h2⟩
      exact h2 hrole
    refine ⟨?_, ?_, ?_⟩
    · simp [updateCourseRoute, hc, hiid, hcheck]
    · simp [deleteCourseRoute, hc, hiid, hcheck]
    · simp [statsRoute, hc, hiid, hcheck, Except.isOk, Except.toBool]

/-- Store holding the owned course 20 (owner id 100) together with admin
and non-owning instructor callers. -/
def dbOwned : Db :=
  { users := [userA, adminUser, instrUser], courses := [courseW] }

/-- Witness for the amended C5 on `dbOwned`: instructor 3 does not own
course 20 (its owner is 100) and is rejected with 403 on all three
operations, while the admin succeeds on all three. -/
theorem ownership_checks_amended_witness :
    ((updateCourseRoute dbOwned 20 instrUser id).1 = .error .forbidden ∧
     (deleteCourseRoute dbOwned 20 instrUser).1 = .error .forbidden ∧
     statsRoute dbOwned 20 instrUser = .error .forbidden ∧
     RouteError.forbidden.status = 403) ∧
    ((updateCourseRoute dbOwned 20 adminUser id).1 = .ok () ∧
     (deleteCourseRoute dbOwned 20 adminUser).1 = .ok () ∧
     (statsRoute dbOwned 20 adminUser).isOk = true) :=
  ⟨ownership_checks_amended.1 dbOwned 20 instrUser courseW 100 id rfl rfl rfl
      (by decide),
   ownership_checks_amended.2 dbOwned 20 adminUser courseW 100 id rfl rfl rfl⟩

/-- The token-verification environment: `jwt.verify` with the server
secret, abstracted as a function from the raw bearer token to the decoded
payload id, `none` standing for a thrown signature/expiry error. -/
structure AuthEnv where
  verify : String → Option Nat

/-- Error outcomes of `protect` (auth.js, lines 5–38), all sent as 401. -/
inductive AuthError
  | noToken
  | invalidToken
  | userNotFound
  | deactivated
deriving DecidableEq, Repr

/-- Middleware `protect` (auth.js, lines 5–38): reject when no bearer token
is present; verify the token; load the referenced user; reject a missing
user and a deactivated account; otherwise attach the caller. -/
def protect (env : AuthEnv) (db : Db) (authHeader : Option String) :
    Except AuthError User :=
  match authHeader with
  | none => .error .noToken
  | some token =>
    match env.verify token with
    | none => .error .invalidToken
    | some decodedId =>
      match db.findUser decodedId with
      | none => .error .userNotFound
      | some user =>
        if ¬ user.isActive then .error .deactivated
        else .ok user

/-- Middleware `optionalAuth` (auth.js, lines 53–68): the same
verify-and-load steps, but a missing header, a failed verification or a
missing user leaves `req.user` null (anonymous) and the request continues.
There is no `isActive` test on this path. -/
def optionalAuth (env : AuthEnv) (db : Db) (authHeader : Option String) :
    Option User :=
  match authHeader with
  | none => none
  | some token =>
    match env.verify token with
    | none => none
    | some decodedId => db.findUser decodedId

/-- A deactivated account. -/
def inactiveUser : User := { userA with id := 5, isActive := false }

/-- Store holding only the deactivated account. -/
def dbInactive : Db := { users := [inactiveUser], courses := [] }

/-- A verifier accepting every token as account 5. -/
def envAccept : AuthEnv := { verify := fun _ => some 5 }

/-- A verifier rejecting every token. -/
def envReject : AuthEnv := { verify := fun _ => none }

/-- A verifier accepting every token as account 1. -/
def envOne : AuthEnv := { verify := fun _ => some 1 }

/-- C6 counterexample: for a token referencing the deactivated account 5,
the `protect` decode path fails with the deactivation error, yet
`optionalAuth` yields that account's identity, not the anonymous one — so
not every failure of the decode path yields an anonymous identity, because
`optionalAuth` skips the activity check. -/
theorem optionalAuth_counterexample :
    protect envAccept dbInactive (some "tok") = .error .deactivated ∧
    optionalAuth envAccept dbInactive (some "tok") = some inactiveUser ∧
    optionalAuth envAccept dbInactive (some "tok") ≠ none :=
  ⟨rfl, rfl, Option.some_ne_none inactiveUser⟩

/-- C6 (amended): `optionalAuth` repeats the verify-and-load steps of
`protect` but omits the activity check. A missing token, a failed
verification or a missing account — every failure of the decode path other
than deactivation — yields the anonymous identity; a `protect` success
yields the same identity; but a token whose account is deactivated (where
`protect` rejects the request) yields that deactivated identity instead of
the anonymous one, as forced by `optionalAuth_counterexample`. -/
theorem optionalAuth_amended :
    ∀ (env : AuthEnv) (db : Db) (tok : Option String),
      (∀ e, protect env db tok = .error e → e ≠ .deactivated →
        optionalAuth env db tok = none) ∧
      (∀ u, protect env db tok = .ok u → optionalAuth env db tok = some u) ∧
      (protect env db tok = .error .deactivated →
        ∃ u, optionalAuth env db tok = some u ∧ u.isActive = false) := by
  intro env db tok
  cases tok with
  | none =>
    refine ⟨fun e he hne => rfl, fun u hu => ?_, fun h => ?_⟩
    · simp [protect] at hu
    · simp [protect] at h
  | some t =>
    cases hv : env.verify t with
    | none =>
      refine ⟨fun e he hne => ?_, fun u hu => ?_, fun h => ?_⟩
      · simp [optionalAuth, hv]
      · simp [protect, hv] at hu
      · simp [protect, hv] at h
    | some did =>
      cases hf : db.findUser did with
      | none =>
        refine ⟨fun e he hne => ?_, fun u hu => ?_, fun h => ?_⟩
        · simp [optionalAuth, hv, hf]
        · simp [protect, hv, hf] at hu
        · simp [protect, hv, hf] at h
      | some u0 =>
        cases ha : u0.isActive with
        | false =>
          refine ⟨fun e he hne => ?_, fun u hu => ?_, fun h => ?_⟩
          · simp [protect, hv, hf, ha] at he
            exact absurd he.symm hne
          · simp [protect, hv, hf, ha] at hu
          · exact ⟨u0, by simp [optionalAuth, hv, hf], ha⟩
        | true =>
          refine ⟨fun e he hne => ?_, fun u hu => ?_, fun h => ?_⟩
          · simp [protect, hv, hf, ha] at he
          · simp [protect, hv, hf, ha] at hu
            simp [optionalAuth, hv, hf, hu]
          · simp [protect, hv, hf, ha] at h

/-- Witness for the amended C6: a rejected token yields the anonymous
identity on the concrete store `dbW`, and an accepted token for the active
account 1 yields that same identity `optionalAuth` returns. -/
theorem optionalAuth_amended_witness :
    optionalAuth envReject dbW (some "bad") = none ∧
    optionalAuth envOne dbW (some "tok") = some userA :=
  ⟨(optionalAuth_amended envReject dbW (some "bad")).1 .invalidToken rfl
      (by decide),
   (optionalAuth_amended envOne dbW (some "tok")).2.1 userA rfl⟩

/-- Insertion of an element into a list, keeping elements related by `le`
in front, used to realise a MongoDB `.sort()` result. -/
def insertSorted {α : Type} (le : α → α → Bool) (a : α) : List α → List α
  | [] => [a]
  | b :: l => if le a b then a :: b :: l else b :: insertSorted le a l

/-- Executable insertion sort realising a MongoDB `.sort()` specification.
MongoDB returns the documents ordered by the sort key; the relative order
of full-key ties is unspecified and this model fixes one. -/
def mongoSort {α : Type} (le : α → α → Bool) : List α → List α
  | [] => []
  | a :: l => insertSorted le a (mongoSort le l)

/-- Inserting permutes to consing. -/
theorem insertSorted_perm {α : Type} (le : α → α → Bool) (a : α)
    (l : List α) : List.Perm (insertSorted le a l) (a :: l) := by
  induction l with
  | nil => exact List.Perm.refl _
  | cons b l ih =>
    unfold insertSorted
    split
    · exact List.Perm.refl _
    · exact (List.Perm.cons b ih).trans (List.Perm.swap a b l)

/-- The sort permutes its input. -/
theorem mongoSort_perm {α : Type} (le : α → α → Bool) (l : List α) :
    List.Perm (mongoSort le l) l := by
  induction l with
  | nil => exact List.Perm.refl _
  | cons a l ih =>
    exact (insertSorted_perm le a (mongoSort le l)).trans (List.Perm.cons a ih)

/-- Inserting into a pairwise `le`-ordered list keeps it ordered, for a
transitive and total comparator. -/
theorem insertSorted_pairwise {α : Type} (le : α → α → Bool)
    (htrans : ∀ a b c, le a b = true → le b c = true → le a c = true)
    (htotal : ∀ a b, le a b = true ∨ le b a = true)
    (a : α) (l : List α) (hl : l.Pairwise (fun x y => le x y = true)) :
    (insertSorted le a l).Pairwise (fun x y => le x y = true) := by
  induction l with
  | nil => simp [insertSorted]
  | cons b l ih =>
    obtain ⟨hb, hl2⟩ := List.pairwise_cons.mp hl
    unfold insertSorted
    split
    next hab =>
      refine List.pairwise_cons.mpr ⟨?_, hl⟩
      intro x hx
      rcases List.mem_cons.mp hx with hxb | hxl
      · exact hxb ▸ hab
      · exact htrans a b x hab (hb x hxl)
    next hab =>
      have hba : le b a = true := by
        rcases htotal a b with h | h
        · exact absurd h hab
        · exact h
      refine List.pairwise_cons.mpr ⟨?_, ih hl2⟩
      intro x hx
      rcases List.mem_cons.mp ((insertSorted_perm le a l).mem_iff.mp hx) with
        hxa | hxl
      · exact hxa ▸ hba
      · exact hb x hxl

/-- The sort output is pairwise ordered, for a transitive and total
comparator. -/
theorem mongoSort_pairwise {α : Type} {le : α → α → Bool}
    (htrans : ∀ a b c, le a b = true → le b c = true → le a c = true)
    (htotal : ∀ a b, le a b = true ∨ le b a = true) (l : List α) :
    (mongoSort le l).Pairwise (fun x y => le x y = true) := by
  induction l with
  | nil => simp [mongoSort]
  | cons a l ih => exact insertSorted_pairwise le htrans htotal a _ ih

/-- The comparator realising `.sort({ createdAt: -1 })`: newest first. -/
def createdDescLe (a b : Course) : Bool := b.createdAt ≤ a.createdAt

/-- The comparator realising `.sort({ rating: -1, createdAt: -1 })`
(Course.js line 243). The first sort key is the embedded `rating` document
itself (not `rating.average`); MongoDB compares embedded documents field by
field in their stored order — `average`, then `count` — so descending on
`rating` is descending on the average with the count as embedded
tie-break; only full `rating` ties fall through to `createdAt`
descending. -/
def ratingSortLe (a b : Course) : Bool :=
  decide (b.rating.average < a.rating.average ∨
    (b.rating.average = a.rating.average ∧
      (b.rating.count < a.rating.count ∨
        (b.rating.count = a.rating.count ∧ b.createdAt ≤ a.createdAt))))

/-- Transitivity of the `getByCategory` comparator. -/
theorem ratingSortLe_trans : ∀ a b c : Course,
    ratingSortLe a b = true → ratingSortLe b c = true →
    ratingSortLe a c = true := by
  intro a b c hab hbc
  simp only [ratingSortLe, decide_eq_true_eq] at hab hbc ⊢
  rcases hab with h1 | ⟨h1, h2⟩
  · rcases hbc with g1 | ⟨g1, g2⟩
    · exact Or.inl (g1.trans h1)
    · exact Or.inl (g1.trans_lt h1)
  · rcases hbc with g1 | ⟨g1, g2⟩
    · exact Or.inl (lt_of_lt_of_eq g1 h1)
    · refine Or.inr ⟨g1.trans h1, ?_⟩
      omega

/-- Totality of the `getByCategory` comparator. -/
theorem ratingSortLe_total : ∀ a b : Course,
    ratingSortLe a b = true ∨ ratingSortLe b a = true := by
  intro a b
  simp only [ratingSortLe, decide_eq_true_eq]
  rcases lt_trichotomy a.rating.average b.rating.average with h | h | h
  · exact Or.inr (Or.inl h)
  · rcases Nat.lt_trichotomy a.rating.count b.rating.count with g | g | g
    · exact Or.inr (Or.inr ⟨h, Or.inl g⟩)
    · rcases Nat.le_total a.createdAt b.createdAt with hc | hc
      · exact Or.inr (Or.inr ⟨h, Or.inr ⟨g, hc⟩⟩)
      · exact Or.inl (Or.inr ⟨h.symm, Or.inr ⟨g.symm, hc⟩⟩)
    · exact Or.inl (Or.inr ⟨h.symm, Or.inl g⟩)
  · exact Or.inl (Or.inl h)

/-- Static `courseSchema.statics.getFeatured` (Course.js, lines 234–238):
featured and published, newest first, capped at 6 results. -/
def getFeatured (db : Db) : List Course :=
  (mongoSort createdDescLe
    (db.courses.filter (fun c => c.isFeatured && c.isPublished))).take 6

/-- Static `courseSchema.statics.getByCategory` (Course.js, lines 241–244):
published courses of the category, sorted by `{ rating: -1, createdAt: -1 }`.
-/
def getByCategory (db : Db) (category : String) : List Course :=
  mongoSort ratingSortLe
    (db.courses.filter (fun c => c.category == category && c.isPublished))

/-- Case-insensitive substring test, modelling the `$regex`/`RegExp`
matching with the `i` option that the list handler builds from the plain
search text (regex metacharacters are out of scope; the claims never
exercise `search`). -/
def containsCI (s pat : String) : Bool :=
  pat.toLower.toList <:+: s.toLower.toList

/-- Query parameters of `GET /` (auth.js router, lines 120–129), already
parsed into typed values. -/
structure ListParams where
  category : Option String := none
  level : Option String := none
  minPrice : Option ℚ := none
  maxPrice : Option ℚ := none
  search : Option String := none
  page : Option Int := none
  limit : Option Int := none

/-- The closed category enumeration shared by the validator and the course
schema. -/
def validCategories : List String :=
  ["Programming", "Data Science", "Design", "Business", "Marketing",
   "Photography", "Music", "Language", "Health", "Science", "Mathematics",
   "Other"]

/-- The closed level enumeration. -/
def validLevels : List String := ["Beginner", "Intermediate", "Advanced"]

/-- The express-validator chain of `GET /` (lines 103–110): optional
category and level restricted to the closed sets, `page` an integer of at
least 1, `limit` an integer between 1 and 50; `minPrice`/`maxPrice` are
numeric by construction here. A failing check makes the handler answer 400.
-/
def validateListParams (p : ListParams) : Bool :=
  (match p.category with
   | none => true
   | some c => validCategories.contains c) &&
  (match p.level with
   | none => true
   | some lv => validLevels.contains lv) &&
  (match p.page with
   | none => true
   | some n => 1 ≤ n) &&
  (match p.limit with
   | none => true
   | some l => 1 ≤ l && l ≤ 50)

/-- The filter document built by `GET /` (lines 131–150): always
`isPublished: true`; category and level equality when supplied; the price
range when supplied; the `$or` search over title, description, instructor
and tags. An empty search string is falsy in JS and applies no filter. -/
def matchesListQuery (p : ListParams) (c : Course) : Bool :=
  c.isPublished &&
  (match p.category with | none => true | some cat => c.category == cat) &&
  (match p.level with | none => true | some lv => c.level == lv) &&
  (match p.minPrice with | none => true | some m => m ≤ c.price) &&
  (match p.maxPrice with | none => true | some m => c.price ≤ m) &&
  (match p.search with
   | none => true
   | some s =>
     if s.isEmpty then true
     else containsCI c.title s || containsCI c.description s ||
       containsCI c.instructor s || c.tags.any (fun t => containsCI t s))

/-- The JSON body of a successful `GET /` (lines 162–169). `items` models
the `courses` array; the `-lessons -reviews` projection is not modelled
(the embedded review lists stay on the values). -/
structure ListResponse where
  count : Nat
  total : Nat
  pages : Nat
  currentPage : Int
  items : List Course
deriving DecidableEq, Repr

/-- Handler `GET /` (auth.js router, lines 103–174): validate; default the
page to 1, the limit to 12 and the sort to newest-first (a custom `sort`
query string is not modelled — the claims fix the default `-createdAt`);
filter; sort; skip `(page-1)*limit` and take `limit`; the filtered total
yields `pages = ceil(total/limit)`. -/
def listCourses (db : Db) (p : ListParams) :
    Except RouteError ListResponse :=
  if ¬ validateListParams p then .error .validationFailed
  else
    let page := p.page.getD 1
    let limit := p.limit.getD 12
    let filtered := db.courses.filter (fun c => matchesListQuery p c)
    let sorted := mongoSort createdDescLe filtered
    let items := (sorted.drop ((page - 1) * limit).toNat).take limit.toNat
    let total := filtered.length
    let pages := (total + limit.toNat - 1) / limit.toNat
    .ok { count := items.length, total := total, pages := pages,
          currentPage := page, items := items }

/-- A published course with the given id, created at time `100 - id`, so
that the newest-first order lists ascending ids. -/
def mkCourse (i : Nat) : Course :=
  { emptyCourse with id := i, createdAt := 100 - i }

/-- Store holding 12 published courses (ids 1 through 12). -/
def db12 : Db :=
  { users := [], courses := (List.range 12).map (fun i => mkCourse (i + 1)) }

/-- Observation: the item ids of a successful list response. -/
def listItemIds : Except RouteError ListResponse → Option (List Nat)
  | .ok r => some (r.items.map Course.id)
  | .error _ => none

/-- Observation: the page count of a successful list response. -/
def listPages : Except RouteError ListResponse → Option Nat
  | .ok r => some r.pages
  | .error _ => none

/-- List request with no parameters. -/
def noParams : ListParams := {}

/-- List request with limit 0. -/
def pLimit0 : ListParams := { limit := some 0 }

/-- List request with limit 50. -/
def pLimit50 : ListParams := { limit := some 50 }

/-- List request with limit 51. -/
def pLimit51 : ListParams := { limit := some 51 }

/-- List request for page 2 with limit 5. -/
def pPage2Limit5 : ListParams := { page := some 2, limit := some 5 }

/-- C7 counterexample: over the 12-course store, the requests with limit 51
and with limit 0 are rejected with a 400 validation error while limit 50 is
served — the out-of-range page size is rejected, not clamped into [1, 50]
(a clamp would have served limit 51 with page size 50, exactly as the
accepted limit-50 request is served). -/
theorem limit_not_clamped :
    listCourses db12 pLimit51 = .error .validationFailed ∧
    listCourses db12 pLimit0 = .error .validationFailed ∧
    (listCourses db12 pLimit50).isOk = true ∧
    RouteError.validationFailed.status = 400 :=
  ⟨rfl, rfl, rfl, rfl⟩

/-- C7 (amended): a `limit` outside [1, 50] is rejected with a 400
validation error instead of being clamped (as `limit_not_clamped` forces);
an absent `limit` behaves exactly as `limit=12`; and the concrete scenario
holds: page 2 with limit 5 over 12 published items returns items 6 through
10 of the newest-first order with `totalPages = 3`. -/
theorem pagination_amended :
    (∀ (db : Db) (p : ListParams) (l : Int), p.limit = some l →
      (l < 1 ∨ 50 < l) →
      listCourses db p = .error .validationFailed ∧
      RouteError.validationFailed.status = 400) ∧
    (∀ (db : Db) (p : ListParams), p.limit = none →
      listCourses db p = listCourses db { p with limit := some 12 }) ∧
    (listItemIds (listCourses db12 pPage2Limit5) = some [6, 7, 8, 9, 10] ∧
     listPages (listCourses db12 pPage2Limit5) = some 3) := by
  refine ⟨?_, ?_, rfl, rfl⟩
  · intro db p l hlim hrange
    have hlf : (decide (1 ≤ l) && decide (l ≤ 50)) = false := by
      rcases hrange with h | h <;> simp <;> omega
    have hv : validateListParams p = false := by
      unfold validateListParams
      rw [hlim]
      simp [hlf]
    refine ⟨?_, rfl⟩
    simp [listCourses, hv]
  · intro db p hlim
    simp [listCourses, validateListParams, matchesListQuery, hlim]

/-- Witness for the amended C7 on the concrete 12-course store: the limit-0
request is rejected with 400, and the parameterless request equals the
limit-12 one. -/
theorem pagination_amended_witness :
    (listCourses db12 pLimit0 = .error .validationFailed ∧
     RouteError.validationFailed.status = 400) ∧
    listCourses db12 noParams =
      listCourses db12 { noParams with limit := some 12 } :=
  ⟨pagination_amended.1 db12 pLimit0 0 rfl (Or.inl (by decide)),
   pagination_amended.2.1 db12 noParams rfl⟩

/-- C8: only published courses are returned — every course in a successful
list response, in `getFeatured` and in `getByCategory` has
`isPublished = true`, for every store, parameter set and category (the
query documents all carry `isPublished: true`). -/
theorem published_courses_only :
    (∀ (db : Db) (p : ListParams) (r : ListResponse),
      listCourses db p = .ok r → ∀ c ∈ r.items, c.isPublished = true) ∧
    (∀ db : Db, ∀ c ∈ getFeatured db, c.isPublished = true) ∧
    (∀ (db : Db) (cat : String), ∀ c ∈ getByCategory db cat,
      c.isPublished = true) := by
  refine ⟨?_, ?_, ?_⟩
  · intro db p r h c hc
    unfold listCourses at h
    split_ifs at h with h1
    simp only [Except.ok.injEq] at h
    subst h
    have h3 : c ∈ mongoSort createdDescLe
        (db.courses.filter (fun x => matchesListQuery p x)) :=
      List.mem_of_mem_drop (List.mem_of_mem_take hc)
    have h4 := (mongoSort_perm createdDescLe _).mem_iff.mp h3
    have h5 := (List.mem_filter.mp h4).2
    simp only [matchesListQuery, Bool.and_eq_true] at h5
    exact h5.1.1.1.1.1
  · intro db c hc
    unfold getFeatured at hc
    have h3 := List.mem_of_mem_take hc
    have h4 := (mongoSort_perm createdDescLe _).mem_iff.mp h3
    have h5 := (List.mem_filter.mp h4).2
    simp only [Bool.and_eq_true] at h5
    exact h5.2
  · intro db cat c hc
    unfold getByCategory at hc
    have h4 := (mongoSort_perm ratingSortLe _).mem_iff.mp hc
    have h5 := (List.mem_filter.mp h4).2
    simp only [Bool.and_eq_true] at h5
    exact h5.2

/-- A published and featured course used as a concrete witness input. -/
def courseF : Course := { emptyCourse with id := 50, isFeatured := true }

/-- Store holding only the published featured course 50. -/
def dbPub : Db := { users := [], courses := [courseF] }

/-- The response of the parameterless list request over `dbPub`. -/
def rPub : ListResponse :=
  { count := 1, total := 1, pages := 1, currentPage := 1, items := [courseF] }

/-- Witness for C8 on the concrete store `dbPub`: course 50 appears in the
list response, in the featured list and in its category list, and is
published. -/
theorem published_courses_only_witness :
    courseF.isPublished = true ∧ courseF.isPublished = true ∧
    courseF.isPublished = true :=
  ⟨published_courses_only.1 dbPub noParams rPub rfl courseF (by decide),
   published_courses_only.2.1 dbPub courseF (by decide),
   published_courses_only.2.2 dbPub "Programming" courseF (by decide)⟩

/-- A published Programming course with rating average 4 from one review,
newer (createdAt 10) than its tie partner. -/
def courseTieNew : Course :=
  { emptyCourse with
    id := 60
    createdAt := 10
    rating := { average := 4, count := 1 } }

/-- A published Programming course with the same rating average 4 but from
two reviews, older (createdAt 5) than its tie partner. -/
def courseTieOld : Course :=
  { emptyCourse with
    id := 61
    createdAt := 5
    rating := { average := 4, count := 2 } }

/-- Store holding the two average-tied Programming courses. -/
def dbTie : Db := { users := [], courses := [courseTieNew, courseTieOld] }

/-- C9 counterexample: courses 60 and 61 tie on the rating average (both 4)
and the claim then orders the newer course 60 (createdAt 10) first, but
`getByCategory` sorts on the whole embedded rating document, so the larger
review count of the older course 61 wins and 61 is returned first. -/
theorem getByCategory_tie_counterexample :
    courseTieNew.rating.average = courseTieOld.rating.average ∧
    courseTieOld.createdAt < courseTieNew.createdAt ∧
    (getByCategory dbTie "Programming").map Course.id = [61, 60] :=
  ⟨rfl, by decide, rfl⟩

/-- C9 (amended): `getByCategory` returns exactly the published courses of
the category (a permutation of that filtered collection), ordered by the
embedded rating document descending — average first, then the review count
as the embedded tie-break — and only then by creation time newest-first.
The count tie-break before `createdAt` is forced by
`getByCategory_tie_counterexample`. -/
theorem getByCategory_sorted_amended :
    ∀ (db : Db) (cat : String),
      List.Perm (getByCategory db cat)
        (db.courses.filter (fun c => c.category == cat && c.isPublished)) ∧
      (getByCategory db cat).Pairwise (fun a b => ratingSortLe a b = true) :=
  fun db cat =>
    ⟨mongoSort_perm ratingSortLe
      (db.courses.filter (fun c => c.category == cat && c.isPublished)),
     mongoSort_pairwise ratingSortLe_trans ratingSortLe_total
      (db.courses.filter (fun c => c.category == cat && c.isPublished))⟩

/-- The request body of `POST /signup` (part_002): the handler destructures
only `name`, `email` and `password`; a `role` supplied by the client sits
in the body but is never read. -/
structure SignupBody where
  name : String
  email : String
  password : String
  role : Option Role := none

/-- The express-validator chain of `POST /signup` (part_002, lines 11–22):
trimmed name of 2 to 100 characters, a valid email (the third-party
`isEmail` predicate is abstracted as a parameter; `normalizeEmail` is not
modelled), password of at least 6 characters. -/
def validSignup (isEmail : String → Bool) (b : SignupBody) : Bool :=
  (2 ≤ b.name.length && b.name.length ≤ 100) &&
  isEmail b.email &&
  (6 ≤ b.password.length)

/-- Handler `POST /signup` (part_002, lines 11–71): validate, reject a
duplicate email with a 400 (modelled by the same 400 error constructor as a
validation failure; the response body differs only in its message), then
`User.create({ name, email, password })` — only the three destructured
fields reach the model, so the schema defaults apply: role `student`,
active account, empty course lists (part_001, lines 28–58). The schema's
email lowercasing and the validator's `normalizeEmail` are not modelled
(no claim depends on the stored email format); `generateToken` and
`updateLastLogin` do not affect the stored role and are not modelled. -/
def signupRoute (isEmail : String → Bool) (db : Db) (newId : Nat)
    (b : SignupBody) : Except RouteError User × Db :=
  if ¬ validSignup isEmail b then (.error .validationFailed, db)
  else
    match db.users.find? (fun u => u.email == b.email) with
    | some _ => (.error .validationFailed, db)
    | none =>
      let user : User :=
        { id := newId, name := b.name, email := b.email,
          password := b.password, role := .student, isActive := true,
          enrolledCourses := [], completedCourses := [] }
      (.ok user, { db with users := db.users ++ [user] })

/-- C10: every account created through `POST /signup` has role `student`:
the handler passes only name, email and password to `User.create`, so any
role field in the request body is ignored, the schema default applies, and
both the returned and the stored account carry role `student` — instructor
or admin roles cannot be obtained via signup. -/
theorem signup_role_student :
    ∀ (isEmail : String → Bool) (db : Db) (newId : Nat) (b : SignupBody)
      (u : User) (db1 : Db),
      signupRoute isEmail db newId b = (.ok u, db1) →
      u.role = .student ∧ db1.users = db.users ++ [u] := by
  intro isEmail db newId b u db1 h
  unfold signupRoute at h
  split_ifs at h with h1
  · split at h
    next => simp at h
    next =>
      simp only [Prod.mk.injEq, Except.ok.injEq] at h
      obtain ⟨hu, hdb⟩ := h
      subst hu
      refine ⟨rfl, ?_⟩
      rw [← hdb]
  · simp at h

/-- The body of the witness signup request; it even asks for the admin
role. -/
def signupBody : SignupBody :=
  { name := "ab", email := "new@x.com", password := "secret1",
    role := some .admin }

/-- An email predicate accepting everything, standing in for the
third-party validator in the witness. -/
def allEmails : String → Bool := fun _ => true

/-- The account the witness signup stores. -/
def createdUser : User :=
  { id := 9, name := "ab", email := "new@x.com", password := "secret1",
    role := .student, isActive := true, enrolledCourses := [],
    completedCourses := [] }

/-- The store after the witness signup. -/
def db1W : Db := { dbW with users := dbW.users ++ [createdUser] }

/-- Witness for C10: the concrete signup on `dbW` — whose body asks for the
admin role — stores an account with role `student`. -/
theorem signup_role_student_witness :
    createdUser.role = .student ∧ db1W.users = dbW.users ++ [createdUser] :=
  signup_role_student allEmails dbW 9 signupBody createdUser db1W rfl
